import Mathlib

/-!
Verification of the content submission and moderation core of the
college-notes application.

Two backend variants exist in the repository and are embedded separately:

* `Server` — the MongoDB/Mongoose variant under `src/server` (routes
  `notes.js` / `questions.js`; the two resources duplicate the same logic,
  the embedding follows `notes.js` line by line).
* `Cms` — the course-scoped MongoDB variant (routes file of the
  college-management-system backend, `GET/POST/PUT /api/notes`,
  like/comment/download sub-routes, model `models/Note.js`).

External collaborators are modelled explicitly: the File Store is a list of
stored file identifiers (identified by their public URL; the multer disk
path and the URL determine one another), the Notification Channel is an
oracle `sendFails : String → Bool` saying which recipient addresses fail,
and `Promise.allSettled` is a per-recipient settlement list.  Timestamps
are opaque naturals supplied by the caller (`now`).
-/

/-- Character-list prefix test used by the substring matcher. -/
def charsMatchFrom : List Char → List Char → Bool
  | [], _ => true
  | _ :: _, [] => false
  | p :: ps, h :: hs => p == h && charsMatchFrom ps hs

/-- Does `pat` occur as a contiguous run inside the haystack? -/
def charsHasSub (pat : List Char) : List Char → Bool
  | [] => charsMatchFrom pat []
  | h :: hs => charsMatchFrom pat (h :: hs) || charsHasSub pat hs

/-- Case-insensitive substring match: the meaning of
`new RegExp(pat, 'i')` applied to `hay` for a metacharacter-free
pattern, as used by the list-query filters. -/
def iLike (hay pat : String) : Bool :=
  charsHasSub pat.toLower.data hay.toLower.data

/-- User roles (`role` enum of the User schema). -/
inductive Role
  | student
  | teacher
  | admin
deriving DecidableEq, BEq, Repr

namespace Server

/-- A user document, restricted to the fields the moderation core reads
(`notifications.email` / `notifications.newNotes` flattened). -/
structure User where
  id : Nat
  name : String
  email : String
  role : Role
  department : String
  notifEmail : Bool
  notifNewNotes : Bool
deriving DecidableEq, Repr

/-- A note document of the `src/server` variant (`models/Notes.js`),
restricted to the fields the routes under verification read or write. -/
structure Note where
  id : Nat
  title : String
  description : String
  subject : String
  department : String
  semester : Nat
  fileUrl : String
  fileName : String
  uploadedBy : Nat
  tags : List String
  isApproved : Bool
  approvedBy : Option Nat
  approvedAt : Option Nat
  downloads : Nat
deriving DecidableEq, Repr

/-- Query-string parameters of `GET /api/notes` that shape the filter.
`approved` is a raw string because the route compares it to the literal
string "true"; the route defaults it to "true" when absent. -/
structure NotesQuery where
  department : Option String
  semester : Option Nat
  subject : Option String
  search : Option String
  approved : String
deriving DecidableEq, Repr

/-- The route's default query: no filters supplied, `approved = 'true'`. -/
def NotesQuery.default : NotesQuery :=
  { department := none, semester := none, subject := none, search := none,
    approved := "true" }

/-- Does a note match the Mongo filter built by `GET /api/notes`
(routes/notes.js, filter construction)?  Mirrors the source: the
`isApproved: true` clause is added only when the caller-supplied
`approved` parameter equals the string "true"; `department`/`subject`
are skipped when equal to "all"; `search` is an or across
title/description/tags with case-insensitive regex. -/
def noteMatches (q : NotesQuery) (n : Note) : Bool :=
  (q.approved != "true" || n.isApproved) &&
  (match q.department with
   | none => true
   | some d => d == "all" || n.department == d) &&
  (match q.semester with
   | none => true
   | some s => n.semester == s) &&
  (match q.subject with
   | none => true
   | some sub => sub == "all" || iLike n.subject sub) &&
  (match q.search with
   | none => true
   | some s =>
       iLike n.title s || iLike n.description s ||
       n.tags.any (fun t => iLike t s))

/-- Access check of `GET /api/notes/:id`: the request succeeds unless the
note is unapproved and the caller is absent, or is neither the uploader
nor an admin/teacher. -/
def canViewDetail (caller : Option User) (n : Note) : Bool :=
  n.isApproved ||
    (match caller with
     | none => false
     | some u => u.id == n.uploadedBy || u.role == Role.admin || u.role == Role.teacher)

/-- Metadata of a note submission (`POST /api/notes` body).  The string
fields hold the values after the validator chain's `.trim()` sanitizers
ran (express-validator mutates the body in place), and `semester` arrives
as a string that is range-checked as an integer, hence `Int`. -/
structure Submission where
  title : String
  description : String
  subject : String
  department : String
  semester : Int
deriving DecidableEq, Repr

/-- The express-validator chain of `POST /api/notes`: names of the fields
that fail validation, in declaration order (the checks run on the
already-trimmed values, see `Submission`). -/
def validationErrorFields (s : Submission) : List String :=
  (if s.title.length < 3 then ["title"] else []) ++
  (if s.description.length < 10 then ["description"] else []) ++
  (if s.subject.isEmpty then ["subject"] else []) ++
  (if s.department.isEmpty then ["department"] else []) ++
  (if s.semester < 1 || 8 < s.semester then ["semester"] else [])

/-- The multer file descriptor (`req.file`), restricted to the fields the
route reads. -/
structure FileDesc where
  filename : String
  originalname : String
  size : Nat
  mimetype : String
deriving DecidableEq, Repr

/-- Public URL under which an uploaded notes file is stored
(`/uploads/notes/` + generated filename); it identifies the stored file
in the File Store model. -/
def uploadFileUrl (filename : String) : String :=
  "/uploads/notes/" ++ filename

/-- How one send promise of a `Promise.allSettled` join ends. -/
inductive Settled
  | fulfilled
  | rejected
deriving DecidableEq, BEq, Repr

/-- The `Promise.allSettled(recipients.map(u => send(u.email, ...)))` join:
every recipient's send is started and runs to settlement; the oracle says
which addresses fail.  Returns the per-recipient settlements in order. -/
def allSettledSends (recipients : List User) (sendFails : String → Bool) :
    List (String × Settled) :=
  recipients.map (fun u =>
    (u.email, if sendFails u.email then Settled.rejected else Settled.fulfilled))

/-- The backend state: Content Repository (`notes`), user collection,
File Store contents, plus observation logs of every email handed to the
Notification Channel (`emailsSent` for direct `sendEmail` calls,
`notifAttempted`/`notifDelivered` for the new-notes fan-out). -/
structure ServerState where
  notes : List Note
  users : List User
  files : List String
  emailsSent : List (String × String)
  notifAttempted : List String
  notifDelivered : List String
deriving DecidableEq, Repr

/-- `User.find` query of the notification fan-out: users of the note's
department who opted into email and new-notes notifications, the uploader
excluded. -/
def interestedUsers (st : ServerState) (department : String) (excludeId : Nat) :
    List User :=
  st.users.filter (fun u =>
    u.department == department && u.notifEmail && u.notifNewNotes &&
    u.id != excludeId)

/-- The detached new-notes notification fan-out (`setImmediate` +
`Promise.allSettled` block of routes/notes.js): records every attempted
recipient and every delivered one. -/
def fanOutNewNotes (st : ServerState) (note : Note) (excludeId : Nat)
    (sendFails : String → Bool) : ServerState :=
  let recipients := interestedUsers st note.department excludeId
  let settled := allSettledSends recipients sendFails
  { st with
    notifAttempted := st.notifAttempted ++ settled.map Prod.fst,
    notifDelivered := st.notifDelivered ++
      (settled.filter (fun r => r.2 == Settled.fulfilled)).map Prod.fst }

/-- Outcome of `POST /api/notes`. -/
inductive SubmitResult
  | validationFailed (fields : List String)
  | fileRequired
  | created (n : Note)
deriving DecidableEq, Repr

/-- The `new Notes({...})` document built by `POST /api/notes` on the
validated inputs. -/
def newNoteDoc (requester : User) (s : Submission) (f : FileDesc)
    (tags : List String) (newId : Nat) : Note :=
  { id := newId, title := s.title, description := s.description,
    subject := s.subject, department := s.department,
    semester := s.semester.toNat,
    fileUrl := uploadFileUrl f.filename, fileName := f.originalname,
    uploadedBy := requester.id, tags := tags,
    isApproved := requester.role == Role.teacher || requester.role == Role.admin,
    approvedBy := none, approvedAt := none, downloads := 0 }

/-- The `POST /api/notes` handler (routes/notes.js).  The uploaded file,
when present, has already been stored by multer (its URL is expected in
`st.files`).  Returns the new state, the response, and the number of
`fs.unlink` invocations performed on the uploaded file. -/
def submitNotes (st : ServerState) (requester : User) (s : Submission)
    (file : Option FileDesc) (tags : List String) (newId : Nat)
    (sendFails : String → Bool) : ServerState × SubmitResult × Nat :=
  let errs := validationErrorFields s
  if !errs.isEmpty then
    match file with
    | some f =>
        ({ st with files := st.files.filter (fun p => p != uploadFileUrl f.filename) },
         SubmitResult.validationFailed errs, 1)
    | none => (st, SubmitResult.validationFailed errs, 0)
  else
    match file with
    | none => (st, SubmitResult.fileRequired, 0)
    | some f =>
        let note := newNoteDoc requester s f tags newId
        let st1 := { st with notes := st.notes ++ [note] }
        let st2 :=
          if note.isApproved then fanOutNewNotes st1 note requester.id sendFails
          else st1
        (st2, SubmitResult.created note, 0)

/-- Outcome of `PATCH /api/notes/:id/approve`. -/
inductive ApproveResult
  | notFound
  | rejectedDeleted
  | approvedNote (n : Note)
deriving DecidableEq, Repr

/-- The `PATCH /api/notes/:id/approve` handler (routes/notes.js; the
questions.js handler is identical up to resource names).  `approved` is
the request-body decision; a JS-falsy `rejectionReason` (absent or empty)
is modelled as `none`.  `unlinkFails` is the File-Store deletion oracle
(fs.unlink failure is logged, never propagated); `sendFails` is the
Notification Channel oracle.  The rejection branch deletes the file
best-effort, deletes the document, and emails the uploader only when a
reason was supplied (the uploader reference is populated from `users`). -/
def approveRoute (st : ServerState) (moderatorId : Nat) (noteId : Nat)
    (approved : Bool) (rejectionReason : Option String) (now : Nat)
    (unlinkFails : Bool) (sendFails : String → Bool) :
    ServerState × ApproveResult :=
  match st.notes.find? (fun n => n.id == noteId) with
  | none => (st, ApproveResult.notFound)
  | some note =>
    if approved then
      let updated := { note with isApproved := true,
                                 approvedBy := some moderatorId,
                                 approvedAt := some now }
      let st1 := { st with
        notes := st.notes.map (fun m => if m.id == noteId then updated else m) }
      let st2 := fanOutNewNotes st1 updated note.uploadedBy sendFails
      (st2, ApproveResult.approvedNote updated)
    else
      let files1 :=
        if st.files.contains note.fileUrl && !unlinkFails then
          st.files.filter (fun p => p != note.fileUrl)
        else st.files
      let st1 := { st with files := files1,
                           notes := st.notes.filter (fun n => n.id != noteId) }
      let st2 :=
        match rejectionReason with
        | some _ =>
            match st.users.find? (fun u => u.id == note.uploadedBy) with
            | some up =>
                { st1 with emailsSent :=
                    st1.emailsSent ++ [(up.email, "Notes Submission Rejected")] }
            | none => st1
        | none => st1
      (st2, ApproveResult.rejectedDeleted)

/-- `EmailService.sendBulkNotification`: each user with the email
preference on gets a send promise, the rest contribute no send; the
promises are joined with `Promise.allSettled` and the aggregate outcome is
only logged.  Returns the settlements of the attempted sends. -/
def sendBulkNotification (users : List User) (sendFails : String → Bool) :
    List (String × Settled) :=
  users.filterMap (fun u =>
    if u.notifEmail then
      some (u.email, if sendFails u.email then Settled.rejected else Settled.fulfilled)
    else none)

end Server

namespace Cms

/-- Note status enum of the course-scoped variant
(`pending`/`approved`/`rejected`). -/
inductive Status
  | pending
  | approved
  | rejected
deriving DecidableEq, BEq, Repr

/-- Visibility enum of the course-scoped Note schema. -/
inductive Visibility
  | public
  | courseSpecific
  | semesterSpecific
deriving DecidableEq, BEq, Repr

/-- A user of the course-scoped variant, restricted to the fields the
notes routes read (`course` is the referenced course id). -/
structure CUser where
  id : Nat
  email : String
  role : Role
  course : Nat
  semester : Nat
deriving DecidableEq, Repr

/-- A note document of the course-scoped variant (`models/Note.js`),
restricted to the fields the routes under verification read or write.
Interaction entries keep their `user` reference and timestamp as a pair;
the schema stores `views`, `downloads` and `likes` as arrays of such
subdocuments.  The schema declares no `approvedAt` path. -/
structure CNote where
  id : Nat
  title : String
  description : String
  subjectName : String
  chapter : String
  topic : String
  course : Nat
  semester : Nat
  noteType : String
  tags : List String
  uploadedBy : Nat
  approvedBy : Option Nat
  status : Status
  visibility : Visibility
  views : List (Nat × Nat)
  downloads : List (Nat × Nat)
  likes : List (Nat × Nat)
  isActive : Bool
deriving DecidableEq, Repr

/-- The course-scoped Note schema declares no `approvedAt` path, so a
stored document never carries that field; reading it always yields
nothing.  (Mongoose silently drops writes to undeclared paths.) -/
def CNote.approvedAtField (_ : CNote) : Option Nat := none

/-- The single `$or` slot of a Mongo filter object: it holds either the
search disjunction or the student visibility restriction — assigning one
overwrites the other, exactly as in the route's filter construction. -/
inductive OrClause
  | searchTerm (s : String)
  | studentScope (course : Nat) (semester : Nat)
deriving DecidableEq, Repr

/-- The filter object built by `GET /api/notes` of the course-scoped
variant. -/
structure CmsFilter where
  isActive : Bool
  status : Option Status
  course : Option Nat
  semester : Option Nat
  subjectName : Option String
  noteType : Option String
  orClause : Option OrClause
deriving DecidableEq, Repr

/-- Query-string parameters of the course-scoped `GET /api/notes`. -/
structure CmsQuery where
  course : Option Nat
  semester : Option Nat
  subject : Option String
  noteType : Option String
  status : Option Status
  search : Option String
deriving DecidableEq, Repr

/-- Filter construction of the course-scoped `GET /api/notes`, statement
by statement: base `isActive: true`; `status = approved` for
unauthenticated or student callers; the plain field filters; the status
override available to teacher/admin; the search `$or`; and finally the
student visibility `$or`, which reassigns the same slot. -/
def cmsBuildFilter (caller : Option CUser) (q : CmsQuery) : CmsFilter :=
  let f0 : CmsFilter :=
    { isActive := true, status := none, course := none, semester := none,
      subjectName := none, noteType := none, orClause := none }
  let f1 :=
    match caller with
    | none => { f0 with status := some Status.approved }
    | some u =>
        if u.role == Role.student then { f0 with status := some Status.approved }
        else f0
  let f2 := { f1 with course := q.course, semester := q.semester,
                      subjectName := q.subject, noteType := q.noteType }
  let f3 :=
    match q.status, caller with
    | some s, some u =>
        if u.role == Role.teacher || u.role == Role.admin then
          { f2 with status := some s }
        else f2
    | _, _ => f2
  let f4 :=
    match q.search with
    | some s => { f3 with orClause := some (OrClause.searchTerm s) }
    | none => f3
  match caller with
  | some u =>
      if u.role == Role.student then
        { f4 with orClause := some (OrClause.studentScope u.course u.semester) }
      else f4
  | none => f4

/-- Interpretation of the `$or` slot on a note. -/
def cmsOrMatches (n : CNote) : OrClause → Bool
  | OrClause.searchTerm s =>
      iLike n.title s || iLike n.description s || iLike n.subjectName s ||
      iLike n.chapter s || iLike n.topic s || n.tags.any (fun t => iLike t s)
  | OrClause.studentScope c sem =>
      (n.course == c && n.semester == sem) || n.visibility == Visibility.public

/-- Does a note match a built filter (Mongo query semantics: all present
clauses conjoined)? -/
def cmsMatches (f : CmsFilter) (n : CNote) : Bool :=
  n.isActive == f.isActive &&
  (match f.status with | none => true | some s => n.status == s) &&
  (match f.course with | none => true | some c => n.course == c) &&
  (match f.semester with | none => true | some s => n.semester == s) &&
  (match f.subjectName with | none => true | some s => iLike n.subjectName s) &&
  (match f.noteType with | none => true | some t => n.noteType == t) &&
  (match f.orClause with | none => true | some c => cmsOrMatches n c)

/-- Access check of the course-scoped `GET /api/notes/:id`: denied when
the note is not approved and the caller is absent, or is a student who
did not upload it. -/
def canViewCms (caller : Option CUser) (n : CNote) : Bool :=
  n.status == Status.approved ||
    (match caller with
     | none => false
     | some u => !(u.role == Role.student && n.uploadedBy != u.id))

/-- View tracking of `GET /api/notes/:id`: push a `{user, viewedAt}`
entry only when the caller has no existing view entry on the note. -/
def trackView (uid : Nat) (now : Nat) (n : CNote) : CNote :=
  if n.views.any (fun v => v.1 == uid) then n
  else { n with views := n.views ++ [(uid, now)] }

/-- Like toggling of `POST /api/notes/:id/like`: a caller with an
existing like entry has all their entries filtered out, otherwise a
`{user, likedAt}` entry is pushed. -/
def toggleLikes (uid : Nat) (now : Nat) (likes : List (Nat × Nat)) :
    List (Nat × Nat) :=
  if likes.any (fun l => l.1 == uid) then likes.filter (fun l => l.1 != uid)
  else likes ++ [(uid, now)]

/-- Number of interaction entries a given user has in an entry list
(measurement used to state the dedup/tally properties). -/
def countUser (uid : Nat) (ls : List (Nat × Nat)) : Nat :=
  (ls.filter (fun l => l.1 == uid)).length

/-- Backend state of the course-scoped variant: the note collection and
the ids of existing courses. -/
structure CmsState where
  notes : List CNote
  courses : List Nat
deriving DecidableEq, Repr

/-- Outcome of the course-scoped `GET /api/notes/:id`. -/
inductive GetNoteResult
  | notFound
  | accessDenied
  | ok (n : CNote)
deriving DecidableEq, Repr

/-- The course-scoped `GET /api/notes/:id` handler: find the active note,
check visibility, track the view for an authenticated caller, persist. -/
def getNoteRoute (st : CmsState) (caller : Option CUser) (noteId : Nat)
    (now : Nat) : CmsState × GetNoteResult :=
  match st.notes.find? (fun n => n.id == noteId && n.isActive) with
  | none => (st, GetNoteResult.notFound)
  | some note =>
    if !canViewCms caller note then (st, GetNoteResult.accessDenied)
    else
      match caller with
      | some u =>
          let n1 := trackView u.id now note
          ({ st with notes := st.notes.map (fun m => if m.id == noteId then n1 else m) },
           GetNoteResult.ok n1)
      | none => (st, GetNoteResult.ok note)

/-- Outcome of `POST /api/notes/:id/download`. -/
inductive DownloadResult
  | notFound
  | tracked (downloadCount : Nat)
deriving DecidableEq, Repr

/-- The course-scoped `POST /api/notes/:id/download` handler: find the
active approved note, unconditionally push a `{user, downloadedAt}`
entry, persist, answer with the new download count. -/
def downloadRoute (st : CmsState) (caller : CUser) (noteId : Nat)
    (now : Nat) : CmsState × DownloadResult :=
  match st.notes.find? (fun n =>
      n.id == noteId && n.isActive && n.status == Status.approved) with
  | none => (st, DownloadResult.notFound)
  | some note =>
    let n1 := { note with downloads := note.downloads ++ [(caller.id, now)] }
    ({ st with notes := st.notes.map (fun m => if m.id == noteId then n1 else m) },
     DownloadResult.tracked n1.downloads.length)

/-- Outcome of `POST /api/notes/:id/like`. -/
inductive LikeResult
  | notFound
  | toggled (liked : Bool) (likeCount : Nat)
deriving DecidableEq, Repr

/-- The course-scoped `POST /api/notes/:id/like` handler: find the active
approved note, toggle the caller's like, persist, answer with the new
membership boolean and count. -/
def likeRoute (st : CmsState) (caller : CUser) (noteId : Nat) (now : Nat) :
    CmsState × LikeResult :=
  match st.notes.find? (fun n =>
      n.id == noteId && n.isActive && n.status == Status.approved) with
  | none => (st, LikeResult.notFound)
  | some note =>
    let existing := note.likes.any (fun l => l.1 == caller.id)
    let n1 := { note with likes := toggleLikes caller.id now note.likes }
    ({ st with notes := st.notes.map (fun m => if m.id == noteId then n1 else m) },
     LikeResult.toggled (!existing) n1.likes.length)

/-- Body of the course-scoped `POST /api/notes`. -/
structure CreateBody where
  title : String
  description : String
  subjectName : String
  chapter : String
  topic : String
  course : Nat
  semester : Nat
  noteType : String
  tags : List String
  visibility : Visibility
deriving DecidableEq, Repr

/-- Outcome of the course-scoped `POST /api/notes`. -/
inductive CreateResult
  | invalidCourse
  | created (n : CNote)
deriving DecidableEq, Repr

/-- The `new Note(noteData)` document built by the course-scoped
`POST /api/notes`. -/
def newCNoteDoc (caller : CUser) (b : CreateBody) (newId : Nat) : CNote :=
  { id := newId, title := b.title, description := b.description,
    subjectName := b.subjectName, chapter := b.chapter, topic := b.topic,
    course := b.course, semester := b.semester, noteType := b.noteType,
    tags := b.tags, uploadedBy := caller.id, approvedBy := none,
    status :=
      if caller.role == Role.teacher || caller.role == Role.admin then
        Status.approved
      else Status.pending,
    visibility := b.visibility, views := [], downloads := [], likes := [],
    isActive := true }

/-- The course-scoped `POST /api/notes` handler: verify the course
exists, then persist a note whose status is `approved` for teacher/admin
uploaders and `pending` for everyone else. -/
def createNoteRoute (st : CmsState) (caller : CUser) (b : CreateBody)
    (newId : Nat) : CmsState × CreateResult :=
  if st.courses.contains b.course then
    let n := newCNoteDoc caller b newId
    ({ st with notes := st.notes ++ [n] }, CreateResult.created n)
  else (st, CreateResult.invalidCourse)

/-- Body of the course-scoped `PUT /api/notes/:id` (the fields the route
declares validators for; absent fields are not assigned). -/
structure UpdateBody where
  title : Option String
  description : Option String
  status : Option Status
deriving DecidableEq, Repr

/-- Outcome of the course-scoped `PUT /api/notes/:id`. -/
inductive UpdateResult
  | notFound
  | accessDenied
  | statusForbidden
  | updated (n : CNote)
deriving DecidableEq, Repr

/-- The course-scoped `PUT /api/notes/:id` handler: find the active note;
owners and moderators may update, only moderators may change `status`;
present body fields are copied onto the note; when the status is being
set to `approved` by a moderator, `approvedBy` is set.  No statement
writes an `approvedAt` (the schema has no such path). -/
def updateNoteRoute (st : CmsState) (caller : CUser) (noteId : Nat)
    (b : UpdateBody) : CmsState × UpdateResult :=
  match st.notes.find? (fun n => n.id == noteId && n.isActive) with
  | none => (st, UpdateResult.notFound)
  | some note =>
    let isOwner := note.uploadedBy == caller.id
    let canModerate := caller.role == Role.teacher || caller.role == Role.admin
    if !isOwner && !canModerate then (st, UpdateResult.accessDenied)
    else if b.status.isSome && !canModerate then (st, UpdateResult.statusForbidden)
    else
      let n1 := { note with title := b.title.getD note.title,
                            description := b.description.getD note.description,
                            status := b.status.getD note.status }
      let n2 :=
        if b.status == some Status.approved && canModerate then
          { n1 with approvedBy := some caller.id }
        else n1
      ({ st with notes := st.notes.map (fun m => if m.id == noteId then n2 else m) },
       UpdateResult.updated n2)

end Cms

namespace Server

/-- A student uploader used by the concrete scenarios. -/
def demoUploader : User :=
  { id := 10, name := "Stu", email := "stu@x", role := Role.student,
    department := "CS", notifEmail := true, notifNewNotes := true }

/-- A pending note uploaded by the student. -/
def demoPendingNote : Note :=
  { id := 1, title := "DS Ch5", description := "chapter five notes in depth",
    subject := "DS", department := "CS", semester := 3,
    fileUrl := uploadFileUrl "f1.pdf", fileName := "f1.pdf", uploadedBy := 10,
    tags := [], isApproved := false, approvedBy := none, approvedAt := none,
    downloads := 0 }

/-- An already published note by the same uploader. -/
def demoApprovedNote : Note :=
  { demoPendingNote with id := 2, fileUrl := uploadFileUrl "f2.pdf",
                         fileName := "f2.pdf", isApproved := true }

/-- Five notification recipients in the same department, all opted in. -/
def demoRecipients : List User :=
  [{ id := 21, name := "U1", email := "u1@x", role := Role.student,
     department := "CS", notifEmail := true, notifNewNotes := true },
   { id := 22, name := "U2", email := "u2@x", role := Role.student,
     department := "CS", notifEmail := true, notifNewNotes := true },
   { id := 23, name := "U3", email := "u3@x", role := Role.student,
     department := "CS", notifEmail := true, notifNewNotes := true },
   { id := 24, name := "U4", email := "u4@x", role := Role.student,
     department := "CS", notifEmail := true, notifNewNotes := true },
   { id := 25, name := "U5", email := "u5@x", role := Role.student,
     department := "CS", notifEmail := true, notifNewNotes := true }]

/-- A concrete backend state holding both notes, their uploader, the five
recipients, and the two stored files. -/
def demoState : ServerState :=
  { notes := [demoPendingNote, demoApprovedNote],
    users := demoUploader :: demoRecipients,
    files := [demoPendingNote.fileUrl, demoApprovedNote.fileUrl],
    emailsSent := [], notifAttempted := [], notifDelivered := [] }

/-- A channel oracle on which exactly recipient #3 fails. -/
def demoFails3 : String → Bool := fun e => e == "u3@x"

/-- The list query an unauthenticated caller obtains by requesting
`GET /api/notes?approved=false`. -/
def bypassQuery : NotesQuery :=
  { department := none, semester := none, subject := none, search := none,
    approved := "false" }

/-- A metadata-invalid submission: semester 9 is outside 1–8, everything
else valid. -/
def demoBadSubmission : Submission :=
  { title := "DS Ch5", description := "chapter five notes in depth",
    subject := "DS", department := "CS", semester := 9 }

/-- A valid submission. -/
def demoGoodSubmission : Submission :=
  { title := "DS Ch5", description := "chapter five notes in depth",
    subject := "DS", department := "CS", semester := 3 }

/-- The file multer stored for the submission. -/
def demoFile : FileDesc :=
  { filename := "g1.pdf", originalname := "notes.pdf", size := 100,
    mimetype := "application/pdf" }

/-- A teacher requester. -/
def demoTeacher : User :=
  { id := 50, name := "Tea", email := "tea@x", role := Role.teacher,
    department := "CS", notifEmail := false, notifNewNotes := false }

end Server

namespace Cms

/-- A teacher of the course-scoped variant. -/
def demoCTeacher : CUser :=
  { id := 7, email := "t@x", role := Role.teacher, course := 1, semester := 3 }

/-- A student of the course-scoped variant. -/
def demoCStudent : CUser :=
  { id := 8, email := "s@x", role := Role.student, course := 1, semester := 3 }

/-- A second student, used for the two-user like scenario. -/
def demoCStudent2 : CUser :=
  { id := 9, email := "s2@x", role := Role.student, course := 1, semester := 3 }

/-- An approved active note of the course-scoped variant, with no
interactions yet. -/
def demoCNote : CNote :=
  { id := 1, title := "DS Ch5", description := "chapter five notes in depth",
    subjectName := "DS", chapter := "5", topic := "trees", course := 1,
    semester := 3, noteType := "lecture", tags := [], uploadedBy := 8,
    approvedBy := none, status := Status.approved,
    visibility := Visibility.public, views := [], downloads := [], likes := [],
    isActive := true }

/-- A pending note by the same student. -/
def demoCPending : CNote :=
  { demoCNote with id := 2, status := Status.pending }

/-- A concrete course-scoped backend state. -/
def demoCmsState : CmsState :=
  { notes := [demoCNote, demoCPending], courses := [1] }

/-- A create body for the course-scoped `POST /api/notes`. -/
def demoCreateBody : CreateBody :=
  { title := "DS Ch6", description := "chapter six notes in depth",
    subjectName := "DS", chapter := "6", topic := "graphs", course := 1,
    semester := 3, noteType := "lecture", tags := [],
    visibility := Visibility.public }

/-- k successive invocations of the detail route by the same
authenticated caller (the state threaded through, responses dropped). -/
def iterGetNote (u : CUser) (i now : Nat) : Nat → CmsState → CmsState
  | 0, st => st
  | k + 1, st => iterGetNote u i now k (getNoteRoute st (some u) i now).1

/-- k successive invocations of the download route by the same caller. -/
def iterDownload (u : CUser) (i now : Nat) : Nat → CmsState → CmsState
  | 0, st => st
  | k + 1, st => iterDownload u i now k (downloadRoute st u i now).1

end Cms

section ListLemmas

variable {α : Type}

theorem role_beq_iff (a b : Role) : (a == b) = true ↔ a = b := by
  cases a <;> cases b <;> decide

theorem status_beq_iff (a b : Cms.Status) : (a == b) = true ↔ a = b := by
  cases a <;> cases b <;> decide

theorem status_approved_beq_self :
    (Cms.Status.approved == Cms.Status.approved) = true := rfl

theorem bool_eq_false_of_ne_true {b : Bool} (h : ¬ b = true) : b = false := by
  cases b
  · rfl
  · exact absurd rfl h

theorem find?_eq_some_of_nodup_mem (key : α → Nat) (p : α → Bool) (i : Nat)
    {l : List α} {a : α}
    (hnd : (l.map key).Nodup) (hmem : a ∈ l) (hkey : key a = i)
    (hp : ∀ m, p m = true → key m = i) (hpa : p a = true) :
    l.find? p = some a := by
  induction l with
  | nil => cases hmem
  | cons h t ih =>
    simp only [List.map_cons, List.nodup_cons] at hnd
    rcases hnd with ⟨hnotin, hndt⟩
    by_cases hph : p h = true
    · have hkh : key h = i := hp h hph
      have hah : a = h := by
        rcases List.mem_cons.mp hmem with h1 | h2
        · exact h1
        · exfalso
          apply hnotin
          have hma : key a ∈ List.map key t := List.mem_map_of_mem key h2
          rwa [hkey, ← hkh] at hma
      rw [List.find?_cons_of_pos _ hph, hah]
    · have hne : a ≠ h := fun he => hph (he ▸ hpa)
      have hat : a ∈ t := by
        rcases List.mem_cons.mp hmem with h1 | h2
        · exact absurd h1 hne
        · exact h2
      rw [List.find?_cons_of_neg _ (by simpa using hph)]
      exact ih hndt hat

theorem map_key_update (key : α → Nat) (i : Nat) (x : α) (hkx : key x = i)
    (l : List α) :
    (l.map (fun m => if key m == i then x else m)).map key = l.map key := by
  rw [List.map_map]
  apply List.map_congr_left
  intro m _
  by_cases hmi : key m = i
  · simp [Function.comp, hmi, hkx]
  · simp [Function.comp, hmi]

theorem find?_update (key : α → Nat) (p : α → Bool) (i : Nat) (x : α)
    {l : List α} {a : α}
    (hnd : (l.map key).Nodup) (hmem : a ∈ l) (hkey : key a = i)
    (hkx : key x = i) (hp : ∀ m, p m = true → key m = i) (hpx : p x = true) :
    (l.map (fun m => if key m == i then x else m)).find? p = some x := by
  apply find?_eq_some_of_nodup_mem key p i _ _ hkx hp hpx
  · rw [map_key_update key i x hkx]
    exact hnd
  · exact List.mem_map.mpr ⟨a, hmem, by simp [hkey]⟩

theorem find?_filter_ne_none (key : α → Nat) (p : α → Bool) (i : Nat)
    (l : List α) (hp : ∀ m, p m = true → key m = i) :
    (l.filter (fun m => key m != i)).find? p = none := by
  rw [List.find?_eq_none]
  intro x hx hpx
  have h2 := (List.mem_filter.mp hx).2
  have h3 : key x = i := hp x hpx
  simp [h3] at h2

end ListLemmas

theorem nat_beq_imp {i : Nat} : ∀ m : Server.Note, (m.id == i) = true → m.id = i :=
  fun _ hm => by simpa using hm

theorem cnote_beq_active_imp {i : Nat} :
    ∀ m : Cms.CNote, (m.id == i && m.isActive) = true → m.id = i := by
  intro m hm
  simp only [Bool.and_eq_true] at hm
  rcases hm with ⟨h1, _⟩
  simpa using h1

theorem cnote_beq_approved_imp {i : Nat} :
    ∀ m : Cms.CNote,
      (m.id == i && m.isActive && (m.status == Cms.Status.approved)) = true →
      m.id = i := by
  intro m hm
  simp only [Bool.and_eq_true] at hm
  rcases hm with ⟨⟨h2, _⟩, _⟩
  simpa using h2

/-- C1: a pending note is served by the public list endpoint.  The list
filter of `GET /api/notes` adds the `isApproved: true` clause only when
the caller-controlled `approved` query parameter equals the string
"true"; the route performs no authentication, so an unauthenticated
request for `?approved=false` matches pending notes.  This theorem
evaluates the filter at that failing input: the pending demo note is
matched by the bypass query although it is unapproved, while the default
query excludes it and the detail endpoint's access check correctly
denies an unauthenticated caller. -/
theorem c1_pending_leaks_to_public_list :
    Server.demoPendingNote.isApproved = false ∧
    Server.noteMatches Server.bypassQuery Server.demoPendingNote = true ∧
    Server.noteMatches Server.NotesQuery.default Server.demoPendingNote = false ∧
    Server.canViewDetail none Server.demoPendingNote = false := by
  decide

/-- C10: in the course-scoped list endpoint, a student caller's
visibility restriction is assigned to the same `$or` slot of the filter
object after the search disjunction has been assigned there, so for a
student caller the built filter is identical with and without a search
term, and every note matches one exactly when it matches the other. -/
theorem c10_student_search_overwritten (u : Cms.CUser) (q : Cms.CmsQuery)
    (s : String) (hrole : u.role = Role.student) :
    Cms.cmsBuildFilter (some u) { q with search := some s }
      = Cms.cmsBuildFilter (some u) { q with search := none } ∧
    ∀ n, Cms.cmsMatches (Cms.cmsBuildFilter (some u) { q with search := some s }) n
        = Cms.cmsMatches (Cms.cmsBuildFilter (some u) { q with search := none }) n := by
  have hfe : Cms.cmsBuildFilter (some u) { q with search := some s }
      = Cms.cmsBuildFilter (some u) { q with search := none } := by
    obtain ⟨uid, uem, urole, uc, us⟩ := u
    cases hrole
    cases hq : q.status <;> rfl
  exact ⟨hfe, fun n => by rw [hfe]⟩

/-- C10 witness: the concrete student caller with a search term gets the
same filter as without one. -/
theorem c10_student_search_overwritten_witness :
    Cms.demoCStudent.role = Role.student ∧
    Cms.cmsBuildFilter (some Cms.demoCStudent)
        { course := none, semester := none, subject := none, noteType := none,
          status := none, search := some "tree" }
      = Cms.cmsBuildFilter (some Cms.demoCStudent)
        { course := none, semester := none, subject := none, noteType := none,
          status := none, search := none } :=
  ⟨by decide,
   (c10_student_search_overwritten Cms.demoCStudent
      { course := none, semester := none, subject := none, noteType := none,
        status := none, search := none } "tree" (by decide)).1⟩

/-- C4: when metadata validation fails on a submission whose file upload
already completed, the handler invokes the File Store deletion exactly
once on the stored file and returns the validation error, leaving no
orphaned file and persisting no note. -/
theorem c4_validation_failure_rolls_back_upload (st : Server.ServerState)
    (requester : Server.User) (s : Server.Submission) (f : Server.FileDesc)
    (tags : List String) (newId : Nat) (sf : String → Bool)
    (hbad : Server.validationErrorFields s ≠ []) :
    Server.submitNotes st requester s (some f) tags newId sf
      = ({ st with files := st.files.filter (fun p => p != Server.uploadFileUrl f.filename) },
         Server.SubmitResult.validationFailed (Server.validationErrorFields s), 1) ∧
    Server.uploadFileUrl f.filename ∉
      (Server.submitNotes st requester s (some f) tags newId sf).1.files ∧
    (Server.submitNotes st requester s (some f) tags newId sf).1.notes = st.notes := by
  have hne : (Server.validationErrorFields s).isEmpty = false := by
    cases h : Server.validationErrorFields s with
    | nil => exact absurd h hbad
    | cons a t => rfl
  have heq : Server.submitNotes st requester s (some f) tags newId sf
      = ({ st with files := st.files.filter (fun p => p != Server.uploadFileUrl f.filename) },
         Server.SubmitResult.validationFailed (Server.validationErrorFields s), 1) := by
    simp [Server.submitNotes, hne]
  refine ⟨heq, ?_, ?_⟩
  · rw [heq]
    simp [List.mem_filter]
  · rw [heq]

/-- C4 witness: the concrete semester-9 submission with a stored file is
rolled back. -/
theorem c4_validation_failure_rolls_back_upload_witness :
    Server.validationErrorFields Server.demoBadSubmission ≠ [] ∧
    Server.submitNotes Server.demoState Server.demoUploader
        Server.demoBadSubmission (some Server.demoFile) [] 77 Server.demoFails3
      = ({ Server.demoState with files := Server.demoState.files.filter (fun p => p != Server.uploadFileUrl Server.demoFile.filename) },
         Server.SubmitResult.validationFailed
           (Server.validationErrorFields Server.demoBadSubmission), 1) :=
  ⟨by decide,
   (c4_validation_failure_rolls_back_upload Server.demoState Server.demoUploader
      Server.demoBadSubmission Server.demoFile [] 77 Server.demoFails3
      (by decide)).1⟩

/-- C9: the rejection branch of the moderation operation performs no
status check: an already-approved (published) note is deleted from the
repository by a reject call exactly like a pending one, and a subsequent
lookup by its id finds nothing. -/
theorem c9_reject_destroys_published (st : Server.ServerState) (mod i : Nat)
    (rr : Option String) (now : Nat) (uf : Bool) (sf : String → Bool)
    (n0 : Server.Note)
    (hnd : (st.notes.map Server.Note.id).Nodup) (hmem : n0 ∈ st.notes)
    (hid : n0.id = i) (_hpub : n0.isApproved = true) :
    (Server.approveRoute st mod i false rr now uf sf).2
        = Server.ApproveResult.rejectedDeleted ∧
    (Server.approveRoute st mod i false rr now uf sf).1.notes.find?
        (fun n => n.id == i) = none := by
  have hfind : st.notes.find? (fun n => n.id == i) = some n0 :=
    find?_eq_some_of_nodup_mem Server.Note.id (fun n => n.id == i) i hnd hmem hid
      nat_beq_imp (by simp [hid])
  have hnone := find?_filter_ne_none Server.Note.id (fun n => n.id == i) i st.notes
      nat_beq_imp
  refine ⟨?_, ?_⟩
  · simp only [Server.approveRoute, hfind]
    cases rr with
    | none => rfl
    | some r =>
        cases h : st.users.find? (fun u => u.id == n0.uploadedBy) <;> rfl
  · simp only [Server.approveRoute, hfind]
    cases rr with
    | none => simp
    | some r =>
        cases h : st.users.find? (fun u => u.id == n0.uploadedBy) <;> simp

/-- C9 witness: rejecting the concrete published note deletes it. -/
theorem c9_reject_destroys_published_witness :
    (Server.demoState.notes.map Server.Note.id).Nodup ∧
    Server.demoApprovedNote ∈ Server.demoState.notes ∧
    Server.demoApprovedNote.isApproved = true ∧
    (Server.approveRoute Server.demoState 50 2 false none 5 false
        Server.demoFails3).1.notes.find? (fun n => n.id == 2) = none :=
  ⟨by decide, by decide, by decide,
   (c9_reject_destroys_published Server.demoState 50 2 none 5 false
      Server.demoFails3 Server.demoApprovedNote (by decide) (by decide)
      (by decide) (by decide)).2⟩

/-- C6: a successful submission persists a content item whose status is
approved exactly when the requester is a teacher or admin, and pending
for every other role — in both backend variants (isApproved boolean in
the `src/server` variant, status enum in the course-scoped variant). -/
theorem c6_initial_status_follows_role (st : Server.ServerState)
    (requester : Server.User) (s : Server.Submission) (f : Server.FileDesc)
    (tags : List String) (newId : Nat) (sf : String → Bool)
    (cst : Cms.CmsState) (caller : Cms.CUser) (b : Cms.CreateBody) (cid : Nat)
    (hok : Server.validationErrorFields s = [])
    (hcourse : cst.courses.contains b.course = true) :
    ((Server.submitNotes st requester s (some f) tags newId sf).2.1
        = Server.SubmitResult.created (Server.newNoteDoc requester s f tags newId) ∧
      Server.newNoteDoc requester s f tags newId
        ∈ (Server.submitNotes st requester s (some f) tags newId sf).1.notes ∧
      (requester.role = Role.teacher ∨ requester.role = Role.admin →
        (Server.newNoteDoc requester s f tags newId).isApproved = true) ∧
      (requester.role = Role.student →
        (Server.newNoteDoc requester s f tags newId).isApproved = false)) ∧
    ((Cms.createNoteRoute cst caller b cid).2
        = Cms.CreateResult.created (Cms.newCNoteDoc caller b cid) ∧
      Cms.newCNoteDoc caller b cid ∈ (Cms.createNoteRoute cst caller b cid).1.notes ∧
      (caller.role = Role.teacher ∨ caller.role = Role.admin →
        (Cms.newCNoteDoc caller b cid).status = Cms.Status.approved) ∧
      (caller.role = Role.student →
        (Cms.newCNoteDoc caller b cid).status = Cms.Status.pending)) := by
  have hemp : (Server.validationErrorFields s).isEmpty = true := by
    rw [hok]; rfl
  refine ⟨⟨?_, ?_, ?_, ?_⟩, ⟨?_, ?_, ?_, ?_⟩⟩
  · simp [Server.submitNotes, hemp]
  · simp only [Server.submitNotes, hemp, Bool.not_true, if_neg, Bool.false_eq_true,
      not_false_eq_true]
    by_cases hap : (Server.newNoteDoc requester s f tags newId).isApproved = true <;>
      simp [hap, Server.fanOutNewNotes]
  · intro hr
    rcases hr with hr | hr <;> (simp only [Server.newNoteDoc]; rw [hr]; decide)
  · intro hr
    simp only [Server.newNoteDoc]; rw [hr]; decide
  · have hmemc : b.course ∈ cst.courses := by simpa using hcourse
    simp [Cms.createNoteRoute, hmemc]
  · have hmemc : b.course ∈ cst.courses := by simpa using hcourse
    simp [Cms.createNoteRoute, hmemc]
  · intro hr
    rcases hr with hr | hr <;> (simp only [Cms.newCNoteDoc]; rw [hr]; decide)
  · intro hr
    simp only [Cms.newCNoteDoc]; rw [hr]; decide

/-- C6 witness: a teacher's upload is created approved, a student's
course-scoped upload is created pending. -/
theorem c6_initial_status_follows_role_witness :
    Server.validationErrorFields Server.demoGoodSubmission = [] ∧
    Cms.demoCmsState.courses.contains Cms.demoCreateBody.course = true ∧
    (Server.newNoteDoc Server.demoTeacher Server.demoGoodSubmission
        Server.demoFile [] 77).isApproved = true ∧
    (Cms.newCNoteDoc Cms.demoCStudent Cms.demoCreateBody 78).status
        = Cms.Status.pending :=
  ⟨by decide, by decide,
   (c6_initial_status_follows_role Server.demoState Server.demoTeacher
      Server.demoGoodSubmission Server.demoFile [] 77 Server.demoFails3
      Cms.demoCmsState Cms.demoCStudent Cms.demoCreateBody 78
      (by decide) (by decide)).1.2.2.1 (Or.inl rfl),
   (c6_initial_status_follows_role Server.demoState Server.demoTeacher
      Server.demoGoodSubmission Server.demoFile [] 77 Server.demoFails3
      Cms.demoCmsState Cms.demoCStudent Cms.demoCreateBody 78
      (by decide) (by decide)).2.2.2.2 rfl⟩

/-- C2: rejecting an existing content item deletes it from the
repository (a subsequent lookup by id finds nothing), removes its file
from the File Store when the deletion succeeds, completes with the
rejection acknowledgement even when the file deletion fails, and sends
the uploader a rejection notice exactly when a rejection reason was
supplied. -/
theorem c2_reject_branch_contract (st : Server.ServerState) (mod i : Nat)
    (rr : Option String) (now : Nat) (uf : Bool) (sf : String → Bool)
    (n0 : Server.Note) (up : Server.User)
    (hnd : (st.notes.map Server.Note.id).Nodup) (hmem : n0 ∈ st.notes)
    (hid : n0.id = i)
    (hup : st.users.find? (fun u => u.id == n0.uploadedBy) = some up) :
    (Server.approveRoute st mod i false rr now uf sf).2
        = Server.ApproveResult.rejectedDeleted ∧
    (Server.approveRoute st mod i false rr now uf sf).1.notes.find?
        (fun n => n.id == i) = none ∧
    (uf = false →
      n0.fileUrl ∉ (Server.approveRoute st mod i false rr now uf sf).1.files) ∧
    (Server.approveRoute st mod i false rr now uf sf).1.emailsSent
        = st.emailsSent ++
          (match rr with
           | some _ => [(up.email, "Notes Submission Rejected")]
           | none => []) := by
  have hfind : st.notes.find? (fun n => n.id == i) = some n0 :=
    find?_eq_some_of_nodup_mem Server.Note.id (fun n => n.id == i) i hnd hmem hid
      nat_beq_imp (by simp [hid])
  refine ⟨?_, ?_, ?_, ?_⟩
  · simp only [Server.approveRoute, hfind]
    cases rr with
    | none => rfl
    | some r => simp only [hup]; rfl
  · simp only [Server.approveRoute, hfind]
    cases rr with
    | none => simp
    | some r => simp only [hup]; simp
  · intro huf
    subst huf
    simp only [Server.approveRoute, hfind]
    cases rr with
    | none =>
        by_cases hc : n0.fileUrl ∈ st.files
        · simp [hc, List.mem_filter]
        · simp [hc]
    | some r =>
        simp only [hup]
        by_cases hc : n0.fileUrl ∈ st.files
        · simp [hc, List.mem_filter]
        · simp [hc]
  · simp only [Server.approveRoute, hfind]
    cases rr with
    | none => simp
    | some r => simp only [hup]; simp

/-- C2 witness: rejecting the concrete pending note with a reason
deletes it and emails its uploader the rejection notice. -/
theorem c2_reject_branch_contract_witness :
    (Server.demoState.notes.map Server.Note.id).Nodup ∧
    Server.demoPendingNote ∈ Server.demoState.notes ∧
    Server.demoState.users.find?
        (fun u => u.id == Server.demoPendingNote.uploadedBy)
      = some Server.demoUploader ∧
    (Server.approveRoute Server.demoState 50 1 false (some "low quality") 5
        false Server.demoFails3).1.emailsSent
      = Server.demoState.emailsSent
          ++ [(Server.demoUploader.email, "Notes Submission Rejected")] :=
  ⟨by decide, by decide, by decide,
   (c2_reject_branch_contract Server.demoState 50 1 (some "low quality") 5
      false Server.demoFails3 Server.demoPendingNote Server.demoUploader
      (by decide) (by decide) (by decide) (by decide)).2.2.2⟩

/-- C3 counterexample: in the course-scoped variant, a teacher's
moderation call (`PUT /api/notes/:id` with `status = approved`) returns
the updated item with `status = approved` and `approvedBy` set, yet the
stored document carries no `approvedAt` at all — the schema declares no
such path — contradicting the claim that the moderation operation sets
`approvedAt` to the current time. -/
theorem c3_approvedAt_counterexample :
    (Cms.updateNoteRoute Cms.demoCmsState Cms.demoCTeacher 2
        { title := none, description := none,
          status := some Cms.Status.approved }).2
      = Cms.UpdateResult.updated
          { Cms.demoCPending with status := Cms.Status.approved,
                                  approvedBy := some 7 } ∧
    Cms.CNote.approvedAtField
        { Cms.demoCPending with status := Cms.Status.approved,
                                approvedBy := some 7 }
      = none :=
  ⟨by decide, rfl⟩

/-- C3 amended: the `PATCH /:id/approve` moderation operation of the
`src/server` variant sets `status = approved`, `approvedBy` to the acting
moderator and `approvedAt` to the current time, persists the item and
returns it; the course-scoped variant's `PUT` status update sets
`status = approved` and `approvedBy` and persists and returns the item,
but never writes an `approvedAt` (its schema has no such field). -/
theorem c3_amended_approve_contract (st : Server.ServerState) (mod i : Nat)
    (rr : Option String) (now : Nat) (uf : Bool) (sf : String → Bool)
    (n0 : Server.Note)
    (cst : Cms.CmsState) (caller : Cms.CUser) (j : Nat) (b : Cms.UpdateBody)
    (m0 : Cms.CNote)
    (hnd : (st.notes.map Server.Note.id).Nodup) (hmem : n0 ∈ st.notes)
    (hid : n0.id = i)
    (hnd2 : (cst.notes.map Cms.CNote.id).Nodup) (hmem2 : m0 ∈ cst.notes)
    (hid2 : m0.id = j) (hact : m0.isActive = true)
    (hrole : caller.role = Role.teacher ∨ caller.role = Role.admin)
    (hbst : b.status = some Cms.Status.approved) :
    ((Server.approveRoute st mod i true rr now uf sf).2
        = Server.ApproveResult.approvedNote
            { n0 with isApproved := true, approvedBy := some mod,
                      approvedAt := some now } ∧
      (Server.approveRoute st mod i true rr now uf sf).1.notes.find?
          (fun n => n.id == i)
        = some { n0 with isApproved := true, approvedBy := some mod,
                         approvedAt := some now }) ∧
    ((Cms.updateNoteRoute cst caller j b).2
        = Cms.UpdateResult.updated
            { m0 with title := b.title.getD m0.title,
                      description := b.description.getD m0.description,
                      status := Cms.Status.approved,
                      approvedBy := some caller.id } ∧
      (Cms.updateNoteRoute cst caller j b).1.notes.find?
          (fun n => n.id == j && n.isActive)
        = some { m0 with title := b.title.getD m0.title,
                         description := b.description.getD m0.description,
                         status := Cms.Status.approved,
                         approvedBy := some caller.id } ∧
      Cms.CNote.approvedAtField
          { m0 with title := b.title.getD m0.title,
                    description := b.description.getD m0.description,
                    status := Cms.Status.approved,
                    approvedBy := some caller.id }
        = none) := by
  have hfind : st.notes.find? (fun n => n.id == i) = some n0 :=
    find?_eq_some_of_nodup_mem Server.Note.id (fun n => n.id == i) i hnd hmem hid
      nat_beq_imp (by simp [hid])
  have hfind2 : cst.notes.find? (fun n => n.id == j && n.isActive) = some m0 :=
    find?_eq_some_of_nodup_mem Cms.CNote.id (fun n => n.id == j && n.isActive) j
      hnd2 hmem2 hid2 cnote_beq_active_imp (by simp [hid2, hact])
  have hcm : (caller.role == Role.teacher || caller.role == Role.admin) = true := by
    rcases hrole with h | h <;> rw [h] <;> decide
  refine ⟨⟨?_, ?_⟩, ?_⟩
  · simp [Server.approveRoute, hfind]
  · simp only [Server.approveRoute, hfind, Server.fanOutNewNotes]
    exact find?_update Server.Note.id (fun n => n.id == i) i _ hnd hmem hid hid
      nat_beq_imp (by simp [hid])
  · have hupd : Cms.updateNoteRoute cst caller j b
        = ({ cst with notes := cst.notes.map (fun m =>
                if m.id == j then
                  { m0 with title := b.title.getD m0.title,
                            description := b.description.getD m0.description,
                            status := Cms.Status.approved,
                            approvedBy := some caller.id }
                else m) },
           Cms.UpdateResult.updated
             { m0 with title := b.title.getD m0.title,
                       description := b.description.getD m0.description,
                       status := Cms.Status.approved,
                       approvedBy := some caller.id }) := by
      simp [Cms.updateNoteRoute, hfind2, hcm, hbst, status_approved_beq_self]
    refine ⟨?_, ?_, rfl⟩
    · rw [hupd]
    · rw [hupd]
      exact find?_update Cms.CNote.id (fun n => n.id == j && n.isActive) j _
        hnd2 hmem2 hid2 hid2 cnote_beq_active_imp (by simp [hid2, hact])

/-- C3 amended witness: approving the concrete pending note stamps
status, moderator and time, and returns the updated note. -/
theorem c3_amended_approve_contract_witness :
    Server.demoPendingNote ∈ Server.demoState.notes ∧
    Cms.demoCPending.isActive = true ∧
    (Server.approveRoute Server.demoState 50 1 true none 5 false
        Server.demoFails3).2
      = Server.ApproveResult.approvedNote
          { Server.demoPendingNote with isApproved := true,
                                        approvedBy := some 50,
                                        approvedAt := some 5 } :=
  ⟨by decide, by decide,
   ((c3_amended_approve_contract Server.demoState 50 1 none 5 false
      Server.demoFails3 Server.demoPendingNote Cms.demoCmsState Cms.demoCTeacher
      2 { title := none, description := none, status := some Cms.Status.approved }
      Cms.demoCPending (by decide) (by decide) (by decide) (by decide)
      (by decide) (by decide) (by decide) (Or.inl (by decide)) (by decide)).1).1⟩

/-- C5: notification fan-out isolation.  On approval, every interested
recipient is handed to the channel no matter which other sends fail, a
recipient whose own send does not fail receives the message even when
others fail, the HTTP response is independent of the channel oracle, and
in `sendBulkNotification` every opted-in user's send settles on its own
(its outcome depends only on that user's address). -/
theorem c5_notification_isolation (st : Server.ServerState) (mod i : Nat)
    (rr : Option String) (now : Nat) (uf : Bool) (sf sf1 sf2 : String → Bool)
    (n0 : Server.Note) (ul : List Server.User)
    (hnd : (st.notes.map Server.Note.id).Nodup) (hmem : n0 ∈ st.notes)
    (hid : n0.id = i) :
    (∀ r ∈ Server.interestedUsers st n0.department n0.uploadedBy,
        r.email ∈ (Server.approveRoute st mod i true rr now uf sf).1.notifAttempted) ∧
    (∀ r ∈ Server.interestedUsers st n0.department n0.uploadedBy,
        sf r.email = false →
        r.email ∈ (Server.approveRoute st mod i true rr now uf sf).1.notifDelivered) ∧
    (Server.approveRoute st mod i true rr now uf sf1).2
        = (Server.approveRoute st mod i true rr now uf sf2).2 ∧
    (∀ u ∈ ul, u.notifEmail = true →
        (u.email,
          if sf u.email then Server.Settled.rejected else Server.Settled.fulfilled)
          ∈ Server.sendBulkNotification ul sf) := by
  have hfind : st.notes.find? (fun n => n.id == i) = some n0 :=
    find?_eq_some_of_nodup_mem Server.Note.id (fun n => n.id == i) i hnd hmem hid
      nat_beq_imp (by simp [hid])
  have happ : ∀ g : String → Bool,
      Server.approveRoute st mod i true rr now uf g
        = (Server.fanOutNewNotes
            { st with notes := st.notes.map (fun m =>
                if m.id == i then
                  { n0 with isApproved := true, approvedBy := some mod,
                            approvedAt := some now }
                else m) }
            { n0 with isApproved := true, approvedBy := some mod,
                      approvedAt := some now }
            n0.uploadedBy g,
           Server.ApproveResult.approvedNote
             { n0 with isApproved := true, approvedBy := some mod,
                       approvedAt := some now }) := by
    intro g
    simp [Server.approveRoute, hfind]
  refine ⟨?_, ?_, ?_, ?_⟩
  · intro r hr
    rw [happ sf]
    simp only [Server.fanOutNewNotes, Server.allSettledSends, List.map_map]
    refine List.mem_append.mpr (Or.inr ?_)
    exact List.mem_map.mpr ⟨r, hr, rfl⟩
  · intro r hr hsf
    rw [happ sf]
    simp only [Server.fanOutNewNotes, Server.allSettledSends]
    refine List.mem_append.mpr (Or.inr ?_)
    refine List.mem_map.mpr ⟨(r.email, Server.Settled.fulfilled), ?_, rfl⟩
    refine List.mem_filter.mpr ⟨?_, rfl⟩
    refine List.mem_map.mpr ⟨r, hr, ?_⟩
    rw [hsf]
    rfl
  · rw [happ sf1, happ sf2]
  · intro u hu he
    refine List.mem_filterMap.mpr ⟨u, hu, ?_⟩
    rw [he]
    rfl

/-- C5 witness: with five interested recipients and a channel failing on
recipient #3, recipient #4 is still delivered. -/
theorem c5_notification_isolation_witness :
    (Server.demoState.notes.map Server.Note.id).Nodup ∧
    ({ id := 24, name := "U4", email := "u4@x", role := Role.student,
       department := "CS", notifEmail := true,
       notifNewNotes := true } : Server.User)
      ∈ Server.interestedUsers Server.demoState
          Server.demoPendingNote.department Server.demoPendingNote.uploadedBy ∧
    Server.demoFails3 "u4@x" = false ∧
    "u4@x" ∈ (Server.approveRoute Server.demoState 50 1 true none 5 false
        Server.demoFails3).1.notifDelivered :=
  ⟨by decide, by decide, by decide,
   (c5_notification_isolation Server.demoState 50 1 none 5 false
      Server.demoFails3 Server.demoFails3 Server.demoFails3
      Server.demoPendingNote Server.demoRecipients (by decide) (by decide)
      (by decide)).2.1
     { id := 24, name := "U4", email := "u4@x", role := Role.student,
       department := "CS", notifEmail := true, notifNewNotes := true }
     (by decide) (by decide)⟩

theorem countUser_append (uid : Nat) (ls : List (Nat × Nat)) (x : Nat × Nat) :
    Cms.countUser uid (ls ++ [x])
      = Cms.countUser uid ls + (if x.1 == uid then 1 else 0) := by
  simp only [Cms.countUser, List.filter_append, List.length_append]
  by_cases h : (x.1 == uid) = true <;> simp [h]

theorem countUser_filter_self (uid : Nat) (ls : List (Nat × Nat)) :
    Cms.countUser uid (ls.filter (fun l => l.1 != uid)) = 0 := by
  simp only [Cms.countUser, List.length_eq_zero, List.filter_filter]
  apply List.filter_eq_nil_iff.mpr
  intro a _
  by_cases h : (a.1 == uid) = true <;> simp [h, bne]

theorem countUser_filter_other (uid w : Nat) (hw : w ≠ uid)
    (ls : List (Nat × Nat)) :
    Cms.countUser w (ls.filter (fun l => l.1 != uid)) = Cms.countUser w ls := by
  simp only [Cms.countUser, List.filter_filter]
  congr 1
  apply List.filter_congr
  intro a _
  by_cases h : a.1 = w
  · have h2 : a.1 ≠ uid := by rw [h]; exact hw
    simp [h, h2, hw]
  · simp [h]

theorem length_filter_ne_add_countUser (uid : Nat) (ls : List (Nat × Nat)) :
    (ls.filter (fun l => l.1 != uid)).length + Cms.countUser uid ls
      = ls.length := by
  simp only [Cms.countUser]
  induction ls with
  | nil => rfl
  | cons h t ih =>
      by_cases hh : (h.1 == uid) = true
      · have hbne : (h.1 != uid) = false := by simp [bne, hh]
        simp [List.filter_cons, hh, hbne]
        omega
      · have hh' : (h.1 == uid) = false := bool_eq_false_of_ne_true hh
        have hbne : (h.1 != uid) = true := by simp [bne, hh']
        simp [List.filter_cons, hh', hbne]
        omega

theorem any_user_iff_countUser_pos (uid : Nat) (ls : List (Nat × Nat)) :
    ls.any (fun l => l.1 == uid) = true ↔ 0 < Cms.countUser uid ls := by
  rw [List.any_eq_true]
  constructor
  · rintro ⟨x, hx, hpx⟩
    have hm : x ∈ ls.filter (fun l => l.1 == uid) := List.mem_filter.mpr ⟨hx, hpx⟩
    have : ls.filter (fun l => l.1 == uid) ≠ [] := by
      intro hnil; rw [hnil] at hm; cases hm
    exact List.length_pos.mpr this
  · intro hpos
    have hne : ls.filter (fun l => l.1 == uid) ≠ [] := by
      intro h
      rw [Cms.countUser, h] at hpos
      simp at hpos
    obtain ⟨x, hx⟩ := List.exists_mem_of_ne_nil _ hne
    exact ⟨x, (List.mem_filter.mp hx).1, (List.mem_filter.mp hx).2⟩

theorem any_user_eq_false_iff (uid : Nat) (ls : List (Nat × Nat)) :
    (ls.any (fun l => l.1 == uid) = false) ↔ Cms.countUser uid ls = 0 := by
  have h := any_user_iff_countUser_pos uid ls
  cases hany : ls.any (fun l => l.1 == uid) <;> simp [hany] at h ⊢ <;> omega

theorem toggleLikes_countUser_self (uid t : Nat) (ls : List (Nat × Nat)) :
    Cms.countUser uid (Cms.toggleLikes uid t ls)
      = if ls.any (fun l => l.1 == uid) then 0 else Cms.countUser uid ls + 1 := by
  unfold Cms.toggleLikes
  by_cases h : ls.any (fun l => l.1 == uid) = true
  · simp [h, countUser_filter_self]
  · have h' : ls.any (fun l => l.1 == uid) = false := bool_eq_false_of_ne_true h
    simp [h', countUser_append]

theorem toggleLikes_countUser_other (uid w t : Nat) (hw : w ≠ uid)
    (ls : List (Nat × Nat)) :
    Cms.countUser w (Cms.toggleLikes uid t ls) = Cms.countUser w ls := by
  unfold Cms.toggleLikes
  by_cases h : ls.any (fun l => l.1 == uid) = true
  · simp only [h, if_true]
    exact countUser_filter_other uid w hw ls
  · have h' : ls.any (fun l => l.1 == uid) = false := bool_eq_false_of_ne_true h
    simp only [h', Bool.false_eq_true, if_false]
    rw [countUser_append]
    have hne : (uid == w) = false := by
      simp only [beq_eq_false_iff_ne, ne_eq]
      exact fun he => hw he.symm
    simp [hne]

theorem toggleLikes_twice_countUser (uid t1 t2 : Nat) (ls : List (Nat × Nat))
    (w : Nat) :
    (0 < Cms.countUser w (Cms.toggleLikes uid t2 (Cms.toggleLikes uid t1 ls))
      ↔ 0 < Cms.countUser w ls) := by
  by_cases hw : w = uid
  · subst hw
    by_cases h1 : ls.any (fun l => l.1 == w) = true
    · have hin : Cms.countUser w (Cms.toggleLikes w t1 ls) = 0 := by
        rw [toggleLikes_countUser_self]; simp [h1]
      have hany2 : (Cms.toggleLikes w t1 ls).any (fun l => l.1 == w) = false :=
        (any_user_eq_false_iff _ _).mpr hin
      rw [toggleLikes_countUser_self, hany2]
      have hpos := (any_user_iff_countUser_pos w ls).mp h1
      simp [hin]
      omega
    · have h1' : ls.any (fun l => l.1 == w) = false := bool_eq_false_of_ne_true h1
      have h0 : Cms.countUser w ls = 0 := (any_user_eq_false_iff _ _).mp h1'
      have hin : Cms.countUser w (Cms.toggleLikes w t1 ls) = 0 + 1 := by
        rw [toggleLikes_countUser_self, h1', h0]; simp
      have hany2 : (Cms.toggleLikes w t1 ls).any (fun l => l.1 == w) = true :=
        (any_user_iff_countUser_pos _ _).mpr (by omega)
      rw [toggleLikes_countUser_self, hany2]
      simp [h0]
  · rw [toggleLikes_countUser_other uid w t2 hw, toggleLikes_countUser_other uid w t1 hw]

theorem toggleLikes_twice_length (uid t1 t2 : Nat) (ls : List (Nat × Nat))
    (hle : Cms.countUser uid ls ≤ 1) :
    (Cms.toggleLikes uid t2 (Cms.toggleLikes uid t1 ls)).length = ls.length := by
  by_cases h1 : ls.any (fun l => l.1 == uid) = true
  · have hpos := (any_user_iff_countUser_pos uid ls).mp h1
    have hin0 : Cms.countUser uid (ls.filter (fun l => l.1 != uid)) = 0 :=
      countUser_filter_self _ _
    have hany2 : (ls.filter (fun l => l.1 != uid)).any (fun l => l.1 == uid) = false :=
      (any_user_eq_false_iff _ _).mpr hin0
    have hinner : Cms.toggleLikes uid t1 ls = ls.filter (fun l => l.1 != uid) := by
      simp [Cms.toggleLikes, h1]
    rw [hinner]
    have houter : Cms.toggleLikes uid t2 (ls.filter (fun l => l.1 != uid))
        = ls.filter (fun l => l.1 != uid) ++ [(uid, t2)] := by
      simp [Cms.toggleLikes, hany2]
    rw [houter]
    have hlen := length_filter_ne_add_countUser uid ls
    simp only [List.length_append, List.length_cons, List.length_nil]
    omega
  · have h1' := bool_eq_false_of_ne_true h1
    have h0 : Cms.countUser uid ls = 0 := (any_user_eq_false_iff _ _).mp h1'
    have hc : Cms.countUser uid (ls ++ [(uid, t1)]) = 1 := by
      rw [countUser_append]; simp [h0]
    have hany2 : (ls ++ [(uid, t1)]).any (fun l => l.1 == uid) = true :=
      (any_user_iff_countUser_pos _ _).mpr (by omega)
    have hinner : Cms.toggleLikes uid t1 ls = ls ++ [(uid, t1)] := by
      simp [Cms.toggleLikes, h1']
    rw [hinner]
    have houter : Cms.toggleLikes uid t2 (ls ++ [(uid, t1)])
        = (ls ++ [(uid, t1)]).filter (fun l => l.1 != uid) := by
      simp [Cms.toggleLikes, hany2]
    rw [houter]
    have hlen := length_filter_ne_add_countUser uid (ls ++ [(uid, t1)])
    rw [hc] at hlen
    simp only [List.length_append, List.length_cons, List.length_nil] at hlen
    omega

theorem toggleLikes_two_users (u v t1 t2 : Nat) (ls : List (Nat × Nat))
    (hu : Cms.countUser u ls = 0) (hv : Cms.countUser v ls = 0) (huv : u ≠ v) :
    Cms.toggleLikes v t2 (Cms.toggleLikes u t1 ls) = ls ++ [(u, t1), (v, t2)] := by
  have hanyu : ls.any (fun l => l.1 == u) = false := (any_user_eq_false_iff _ _).mpr hu
  have hcv : Cms.countUser v (ls ++ [(u, t1)]) = 0 := by
    rw [countUser_append]
    have hne : (u == v) = false := by
      simp only [beq_eq_false_iff_ne, ne_eq]; exact huv
    simp [hv, hne]
  have hanyv : (ls ++ [(u, t1)]).any (fun l => l.1 == v) = false :=
    (any_user_eq_false_iff _ _).mpr hcv
  have hinner : Cms.toggleLikes u t1 ls = ls ++ [(u, t1)] := by
    simp [Cms.toggleLikes, hanyu]
  rw [hinner]
  have houter : Cms.toggleLikes v t2 (ls ++ [(u, t1)])
      = (ls ++ [(u, t1)]) ++ [(v, t2)] := by
    simp [Cms.toggleLikes, hanyv]
  rw [houter]
  simp

/-- C8: the like operation toggles the caller's membership in the item's
like set and returns the new membership boolean and updated count; two
consecutive toggles by the same user restore the original like set (and
the original count when the user had at most one entry), and likes by
two distinct fresh users append both entries, yielding two more likes
with each user counted exactly once — the same outcome in either
order. -/
theorem c8_like_toggle_contract (st : Cms.CmsState) (caller : Cms.CUser)
    (i now : Nat) (n0 : Cms.CNote)
    (hnd : (st.notes.map Cms.CNote.id).Nodup) (hmem : n0 ∈ st.notes)
    (hid : n0.id = i) (hact : n0.isActive = true)
    (happr : n0.status = Cms.Status.approved) :
    ((Cms.likeRoute st caller i now).2
        = Cms.LikeResult.toggled (!(n0.likes.any (fun l => l.1 == caller.id)))
            (Cms.toggleLikes caller.id now n0.likes).length ∧
      (Cms.likeRoute st caller i now).1.notes.find?
          (fun n => n.id == i && n.isActive && (n.status == Cms.Status.approved))
        = some { n0 with likes := Cms.toggleLikes caller.id now n0.likes }) ∧
    (∀ uid t (ls : List (Nat × Nat)),
        (0 < Cms.countUser uid (Cms.toggleLikes uid t ls) ↔
          ¬ 0 < Cms.countUser uid ls) ∧
        ∀ w, w ≠ uid →
          Cms.countUser w (Cms.toggleLikes uid t ls) = Cms.countUser w ls) ∧
    (∀ uid t1 t2 (ls : List (Nat × Nat)),
        (∀ w, 0 < Cms.countUser w (Cms.toggleLikes uid t2 (Cms.toggleLikes uid t1 ls))
            ↔ 0 < Cms.countUser w ls) ∧
        (Cms.countUser uid ls ≤ 1 →
          (Cms.toggleLikes uid t2 (Cms.toggleLikes uid t1 ls)).length = ls.length)) ∧
    (∀ u v t1 t2 (ls : List (Nat × Nat)),
        Cms.countUser u ls = 0 → Cms.countUser v ls = 0 → u ≠ v →
        Cms.toggleLikes v t2 (Cms.toggleLikes u t1 ls) = ls ++ [(u, t1), (v, t2)] ∧
        (Cms.toggleLikes v t2 (Cms.toggleLikes u t1 ls)).length = ls.length + 2 ∧
        Cms.countUser u (Cms.toggleLikes v t2 (Cms.toggleLikes u t1 ls)) = 1 ∧
        Cms.countUser v (Cms.toggleLikes v t2 (Cms.toggleLikes u t1 ls)) = 1) := by
  have hfind : st.notes.find?
      (fun n => n.id == i && n.isActive && (n.status == Cms.Status.approved))
      = some n0 :=
    find?_eq_some_of_nodup_mem Cms.CNote.id _ i hnd hmem hid
      cnote_beq_approved_imp
      (by simp [hid, hact, happr, status_approved_beq_self])
  refine ⟨⟨?_, ?_⟩, ?_, ?_, ?_⟩
  · simp only [Cms.likeRoute, hfind]
  · simp only [Cms.likeRoute, hfind]
    exact find?_update Cms.CNote.id _ i _ hnd hmem hid hid
      cnote_beq_approved_imp (by simp [hid, hact, happr, status_approved_beq_self])
  · intro uid t ls
    constructor
    · rw [toggleLikes_countUser_self]
      by_cases h : ls.any (fun l => l.1 == uid) = true
      · have := (any_user_iff_countUser_pos uid ls).mp h
        simp [h]
        omega
      · have h' := bool_eq_false_of_ne_true h
        have h0 := (any_user_eq_false_iff uid ls).mp h'
        simp [h', h0]
    · intro w hw
      exact toggleLikes_countUser_other uid w t hw ls
  · intro uid t1 t2 ls
    exact ⟨fun w => toggleLikes_twice_countUser uid t1 t2 ls w,
           toggleLikes_twice_length uid t1 t2 ls⟩
  · intro u v t1 t2 ls hu hv huv
    have heq := toggleLikes_two_users u v t1 t2 ls hu hv huv
    refine ⟨heq, ?_, ?_, ?_⟩
    · rw [heq]; simp
    · rw [heq]
      have h1 : ls ++ [(u, t1), (v, t2)] = (ls ++ [(u, t1)]) ++ [(v, t2)] := by simp
      rw [h1, countUser_append, countUser_append]
      have hvu : (v == u) = false := by
        simp only [beq_eq_false_iff_ne, ne_eq]
        exact fun he => huv he.symm
      simp [hu, hvu]
    · rw [heq]
      have h1 : ls ++ [(u, t1), (v, t2)] = (ls ++ [(u, t1)]) ++ [(v, t2)] := by simp
      rw [h1, countUser_append, countUser_append]
      have huvb : (u == v) = false := by
        simp only [beq_eq_false_iff_ne, ne_eq]
        exact huv
      simp [hv, huvb]

/-- C8 witness: two students like the concrete note in sequence; each
appears once and the count is two, and the route reports the first like
with membership true and count one. -/
theorem c8_like_toggle_contract_witness :
    Cms.demoCNote ∈ Cms.demoCmsState.notes ∧
    Cms.demoCNote.status = Cms.Status.approved ∧
    (Cms.likeRoute Cms.demoCmsState Cms.demoCStudent 1 4).2
      = Cms.LikeResult.toggled true 1 ∧
    Cms.toggleLikes 9 5 (Cms.toggleLikes 8 4 Cms.demoCNote.likes)
      = [(8, 4), (9, 5)] :=
  ⟨by decide, by decide,
   (c8_like_toggle_contract Cms.demoCmsState Cms.demoCStudent 1 4 Cms.demoCNote
      (by decide) (by decide) (by decide) (by decide) (by decide)).1.1,
   ((c8_like_toggle_contract Cms.demoCmsState Cms.demoCStudent 1 4 Cms.demoCNote
      (by decide) (by decide) (by decide) (by decide) (by decide)).2.2.2
      8 9 4 5 Cms.demoCNote.likes (by decide) (by decide) (by decide)).1⟩

theorem canViewCms_of_approved (caller : Option Cms.CUser) (n : Cms.CNote)
    (h : n.status = Cms.Status.approved) : Cms.canViewCms caller n = true := by
  simp [Cms.canViewCms, h, status_approved_beq_self]

theorem getNoteRoute_fix (st : Cms.CmsState) (u : Cms.CUser) (i now : Nat)
    (n1 : Cms.CNote)
    (hnd : (st.notes.map Cms.CNote.id).Nodup) (hmem : n1 ∈ st.notes)
    (hid : n1.id = i) (hact : n1.isActive = true)
    (happr : n1.status = Cms.Status.approved)
    (hhas : n1.views.any (fun v => v.1 == u.id) = true) :
    (Cms.getNoteRoute st (some u) i now).1.notes.find?
        (fun n => n.id == i && n.isActive) = some n1 ∧
    ((Cms.getNoteRoute st (some u) i now).1.notes.map Cms.CNote.id)
        = st.notes.map Cms.CNote.id ∧
    n1 ∈ (Cms.getNoteRoute st (some u) i now).1.notes := by
  have hfind : st.notes.find? (fun n => n.id == i && n.isActive) = some n1 :=
    find?_eq_some_of_nodup_mem Cms.CNote.id _ i hnd hmem hid cnote_beq_active_imp
      (by simp [hid, hact])
  have hcv : Cms.canViewCms (some u) n1 = true := canViewCms_of_approved _ _ happr
  have htv : Cms.trackView u.id now n1 = n1 := by simp [Cms.trackView, hhas]
  have hroute : (Cms.getNoteRoute st (some u) i now).1
      = { st with notes := st.notes.map (fun m => if m.id == i then n1 else m) } := by
    simp [Cms.getNoteRoute, hfind, hcv, htv]
  rw [hroute]
  refine ⟨?_, ?_, ?_⟩
  · exact find?_update Cms.CNote.id _ i _ hnd hmem hid hid cnote_beq_active_imp
      (by simp [hid, hact])
  · exact map_key_update Cms.CNote.id i n1 hid st.notes
  · exact List.mem_map.mpr ⟨n1, hmem, by simp [hid]⟩

theorem iterGetNote_fix (u : Cms.CUser) (i now : Nat) (n1 : Cms.CNote)
    (hid : n1.id = i) (hact : n1.isActive = true)
    (happr : n1.status = Cms.Status.approved)
    (hhas : n1.views.any (fun v => v.1 == u.id) = true) :
    ∀ (k : Nat) (st : Cms.CmsState),
      (st.notes.map Cms.CNote.id).Nodup → n1 ∈ st.notes →
      (Cms.iterGetNote u i now k st).notes.find?
          (fun n => n.id == i && n.isActive) = some n1 := by
  intro k
  induction k with
  | zero =>
      intro st hnd hmem
      exact find?_eq_some_of_nodup_mem Cms.CNote.id _ i hnd hmem hid
        cnote_beq_active_imp (by simp [hid, hact])
  | succ k ih =>
      intro st hnd hmem
      obtain ⟨_, h2, h3⟩ := getNoteRoute_fix st u i now n1 hnd hmem hid hact happr hhas
      exact ih (Cms.getNoteRoute st (some u) i now).1 (by rw [h2]; exact hnd) h3

theorem getNoteRoute_first_view (st : Cms.CmsState) (u : Cms.CUser)
    (i now : Nat) (n0 : Cms.CNote)
    (hnd : (st.notes.map Cms.CNote.id).Nodup) (hmem : n0 ∈ st.notes)
    (hid : n0.id = i) (hact : n0.isActive = true)
    (happr : n0.status = Cms.Status.approved)
    (hnov : n0.views.any (fun v => v.1 == u.id) = false) :
    ((Cms.getNoteRoute st (some u) i now).1.notes.map Cms.CNote.id)
        = st.notes.map Cms.CNote.id ∧
    { n0 with views := n0.views ++ [(u.id, now)] }
        ∈ (Cms.getNoteRoute st (some u) i now).1.notes ∧
    (Cms.getNoteRoute st (some u) i now).2
        = Cms.GetNoteResult.ok { n0 with views := n0.views ++ [(u.id, now)] } := by
  have hfind : st.notes.find? (fun n => n.id == i && n.isActive) = some n0 :=
    find?_eq_some_of_nodup_mem Cms.CNote.id _ i hnd hmem hid cnote_beq_active_imp
      (by simp [hid, hact])
  have hcv : Cms.canViewCms (some u) n0 = true := canViewCms_of_approved _ _ happr
  have htv : Cms.trackView u.id now n0
      = { n0 with views := n0.views ++ [(u.id, now)] } := by
    simp [Cms.trackView, hnov]
  have hroute : Cms.getNoteRoute st (some u) i now
      = ({ st with notes := st.notes.map (fun m =>
            if m.id == i then { n0 with views := n0.views ++ [(u.id, now)] } else m) },
         Cms.GetNoteResult.ok { n0 with views := n0.views ++ [(u.id, now)] }) := by
    simp [Cms.getNoteRoute, hfind, hcv, htv]
  rw [hroute]
  refine ⟨?_, ?_, rfl⟩
  · exact map_key_update Cms.CNote.id i
      { n0 with views := n0.views ++ [(u.id, now)] } hid st.notes
  · exact List.mem_map.mpr ⟨n0, hmem, by simp [hid]⟩

theorem downloadRoute_step (st : Cms.CmsState) (u : Cms.CUser) (i now : Nat)
    (n0 : Cms.CNote)
    (hnd : (st.notes.map Cms.CNote.id).Nodup) (hmem : n0 ∈ st.notes)
    (hid : n0.id = i) (hact : n0.isActive = true)
    (happr : n0.status = Cms.Status.approved) :
    ((Cms.downloadRoute st u i now).1.notes.map Cms.CNote.id)
        = st.notes.map Cms.CNote.id ∧
    { n0 with downloads := n0.downloads ++ [(u.id, now)] }
        ∈ (Cms.downloadRoute st u i now).1.notes ∧
    (Cms.downloadRoute st u i now).2
        = Cms.DownloadResult.tracked (n0.downloads.length + 1) := by
  have hfind : st.notes.find?
      (fun n => n.id == i && n.isActive && (n.status == Cms.Status.approved))
      = some n0 :=
    find?_eq_some_of_nodup_mem Cms.CNote.id _ i hnd hmem hid
      cnote_beq_approved_imp (by simp [hid, hact, happr, status_approved_beq_self])
  have hroute : Cms.downloadRoute st u i now
      = ({ st with notes := st.notes.map (fun m =>
            if m.id == i then { n0 with downloads := n0.downloads ++ [(u.id, now)] }
            else m) },
         Cms.DownloadResult.tracked (n0.downloads ++ [(u.id, now)]).length) := by
    simp [Cms.downloadRoute, hfind]
  rw [hroute]
  refine ⟨?_, ?_, ?_⟩
  · exact map_key_update Cms.CNote.id i
      { n0 with downloads := n0.downloads ++ [(u.id, now)] } hid st.notes
  · exact List.mem_map.mpr ⟨n0, hmem, by simp [hid]⟩
  · simp

theorem iterDownload_accum (u : Cms.CUser) (i now : Nat) :
    ∀ (k : Nat) (st : Cms.CmsState) (n0 : Cms.CNote),
      (st.notes.map Cms.CNote.id).Nodup → n0 ∈ st.notes → n0.id = i →
      n0.isActive = true → n0.status = Cms.Status.approved →
      (Cms.iterDownload u i now k st).notes.find?
          (fun n => n.id == i && n.isActive && (n.status == Cms.Status.approved))
        = some { n0 with downloads := n0.downloads ++ List.replicate k (u.id, now) } ∧
      ((Cms.iterDownload u i now k st).notes.map Cms.CNote.id)
        = st.notes.map Cms.CNote.id := by
  intro k
  induction k with
  | zero =>
      intro st n0 hnd hmem hid hact happr
      have hz : ({ n0 with downloads := n0.downloads ++ List.replicate 0 (u.id, now) } :
          Cms.CNote) = n0 := by simp
      rw [hz]
      exact ⟨find?_eq_some_of_nodup_mem Cms.CNote.id _ i hnd hmem hid
        cnote_beq_approved_imp (by simp [hid, hact, happr, status_approved_beq_self]),
        rfl⟩
  | succ k ih =>
      intro st n0 hnd hmem hid hact happr
      obtain ⟨hmap, hmem2, _⟩ := downloadRoute_step st u i now n0 hnd hmem hid hact happr
      have hrec := ih (Cms.downloadRoute st u i now).1
        { n0 with downloads := n0.downloads ++ [(u.id, now)] }
        (by rw [hmap]; exact hnd) hmem2 hid hact happr
      have harr : ({ n0 with downloads :=
            (n0.downloads ++ [(u.id, now)]) ++ List.replicate k (u.id, now) } :
          Cms.CNote)
          = { n0 with downloads :=
              n0.downloads ++ List.replicate (k + 1) (u.id, now) } := by
        rw [List.append_assoc, List.singleton_append, ← List.replicate_succ]
      refine ⟨?_, ?_⟩
      · have h1 := hrec.1
        rw [harr] at h1
        exact h1
      · rw [show Cms.iterDownload u i now (k + 1) st
            = Cms.iterDownload u i now k (Cms.downloadRoute st u i now).1 from rfl,
          hrec.2, hmap]

theorem countUser_append_replicate (uid t : Nat) (d : List (Nat × Nat)) (k : Nat) :
    Cms.countUser uid (d ++ List.replicate k (uid, t))
      = Cms.countUser uid d + k := by
  induction k with
  | zero => simp [Cms.countUser]
  | succ k ih =>
      rw [List.replicate_succ', ← List.append_assoc, countUser_append, ih]
      simp
      omega

/-- C7: interaction tracking on an approved item.  Viewing the item
k + 1 times by the same authenticated user leaves exactly one view entry
for that user on the stored note; downloading it k2 times appends k2
download entries for that user, and the next download call reports a
download count equal to the initial count plus the number of downloads
performed. -/
theorem c7_view_dedup_download_tally (st : Cms.CmsState) (u : Cms.CUser)
    (i now : Nat) (n0 : Cms.CNote) (k k2 : Nat)
    (hnd : (st.notes.map Cms.CNote.id).Nodup) (hmem : n0 ∈ st.notes)
    (hid : n0.id = i) (hact : n0.isActive = true)
    (happr : n0.status = Cms.Status.approved)
    (hnov : Cms.countUser u.id n0.views = 0) :
    (Cms.iterGetNote u i now (k + 1) st).notes.find?
        (fun n => n.id == i && n.isActive)
      = some { n0 with views := n0.views ++ [(u.id, now)] } ∧
    Cms.countUser u.id (n0.views ++ [(u.id, now)]) = 1 ∧
    (Cms.iterDownload u i now k2 st).notes.find?
        (fun n => n.id == i && n.isActive && (n.status == Cms.Status.approved))
      = some { n0 with downloads := n0.downloads ++ List.replicate k2 (u.id, now) } ∧
    Cms.countUser u.id (n0.downloads ++ List.replicate k2 (u.id, now))
      = Cms.countUser u.id n0.downloads + k2 ∧
    (Cms.downloadRoute (Cms.iterDownload u i now k2 st) u i now).2
      = Cms.DownloadResult.tracked (n0.downloads.length + k2 + 1) := by
  have hnovb : n0.views.any (fun v => v.1 == u.id) = false :=
    (any_user_eq_false_iff _ _).mpr hnov
  obtain ⟨hmap, hmem1, _⟩ :=
    getNoteRoute_first_view st u i now n0 hnd hmem hid hact happr hnovb
  have hcnt1 : Cms.countUser u.id (n0.views ++ [(u.id, now)]) = 1 := by
    rw [countUser_append, hnov]; simp
  have h1has : ({ n0 with views := n0.views ++ [(u.id, now)] } :
      Cms.CNote).views.any (fun v => v.1 == u.id) = true :=
    (any_user_iff_countUser_pos _ _).mpr (by rw [hcnt1]; omega)
  have haccum := iterDownload_accum u i now k2 st n0 hnd hmem hid hact happr
  refine ⟨?_, hcnt1, haccum.1, ?_, ?_⟩
  · exact iterGetNote_fix u i now { n0 with views := n0.views ++ [(u.id, now)] }
      hid hact happr h1has k (Cms.getNoteRoute st (some u) i now).1
      (by rw [hmap]; exact hnd) hmem1
  · exact countUser_append_replicate u.id now n0.downloads k2
  · have hmem2 : ({ n0 with downloads :=
        n0.downloads ++ List.replicate k2 (u.id, now) } : Cms.CNote)
        ∈ (Cms.iterDownload u i now k2 st).notes :=
      List.mem_of_find?_eq_some haccum.1
    have hstep := downloadRoute_step (Cms.iterDownload u i now k2 st) u i now
      { n0 with downloads := n0.downloads ++ List.replicate k2 (u.id, now) }
      (by rw [haccum.2]; exact hnd) hmem2 hid hact happr
    rw [hstep.2.2]
    simp [List.length_append, List.length_replicate]

/-- C7 witness: the concrete student views the approved note three times
and one view entry is stored; after two downloads the third download
call reports a count of three. -/
theorem c7_view_dedup_download_tally_witness :
    Cms.demoCNote ∈ Cms.demoCmsState.notes ∧
    Cms.countUser Cms.demoCStudent.id Cms.demoCNote.views = 0 ∧
    (Cms.iterGetNote Cms.demoCStudent 1 9 3 Cms.demoCmsState).notes.find?
        (fun n => n.id == 1 && n.isActive)
      = some { Cms.demoCNote with views := Cms.demoCNote.views ++ [(8, 9)] } ∧
    (Cms.downloadRoute (Cms.iterDownload Cms.demoCStudent 1 9 2 Cms.demoCmsState)
        Cms.demoCStudent 1 9).2
      = Cms.DownloadResult.tracked 3 :=
  ⟨by decide, by decide,
   (c7_view_dedup_download_tally Cms.demoCmsState Cms.demoCStudent 1 9
      Cms.demoCNote 2 2 (by decide) (by decide) (by decide) (by decide)
      (by decide) (by decide)).1,
   (c7_view_dedup_download_tally Cms.demoCmsState Cms.demoCStudent 1 9
      Cms.demoCNote 2 2 (by decide) (by decide) (by decide) (by decide)
      (by decide) (by decide)).2.2.2.2⟩
